import Mathlib

/-!
Verification development for the anomaly-detection pipeline of the
backEnd_Tesis repository (app/pipes/pipeline.py, flag_precio.py,
flag_fecha.py, flag_redcontactos.py and app/db/repo.py).

Modelling conventions of this shallow embedding:
* SQL tables become Lean lists of rows; row lookups by primary key or by a
  WHERE condition become `List.find?` / `List.filter`; `ORDER BY id` becomes
  an insertion sort on the id component; `LIMIT n` becomes `List.take`.
* Python `datetime` values are modelled by their day number as an `Int`,
  with day 0 a Monday, so `weekday() < 5` becomes `d % 7 < 5`.  Holiday
  sets of ISO strings become lists of day numbers (ISO rendering of a date
  is injective, so membership is the same test).
* Monetary values (`float` in the source) are modelled as `Option ℚ` where
  `none` stands for SQL NULL as well as a non-finite float: the source
  treats both alike at every decision point that the claims touch.
* Embedding chunk vectors appear in the source only through (a) whether a
  row yields a usable vector (`_to_np_vec` result non-None) and (b) the
  floating cosine distance between pooled vectors.  (a) is modelled by a
  `Bool` per chunk row; (b) is an uninterpreted rational-valued field
  `cosScore` of the database model, since the claims under study never
  depend on actual cosine values, only on how scores are combined with the
  estado penalty, sorted and truncated.
* Python dict/set state becomes insertion-ordered association lists; the
  source iterates `set` objects in unspecified order, the model fixes
  insertion order (no claim depends on the order).
* Raised exceptions become `Except.error` carrying the message.
-/

/-! ## Flag storage (app/db/schema.py and app/db/repo.py) -/

structure FlagDef where
  id : Nat
  codigo : String
  nombre : String
  descripcion : Option String
deriving Repr, DecidableEq

structure FlagAssignment where
  id : Nat
  licitacion_id : Nat
  flag_id : Nat
  valor : Bool
  fecha_detectado : Nat
  comentario : Option String
  fuente : Option String
deriving Repr, DecidableEq

/-- One row of `flags_log`.  The source stores the change as a formatted
string `valor=...; comentario=...; fuente=...`; the model stores the three
components, which is the same information. -/
structure FlagLogEntry where
  flags_licitaciones_id : Nat
  cambio_valor : Bool
  cambio_comentario : Option String
  cambio_fuente : Option String
  fecha : Nat
  usuario : String
deriving Repr, DecidableEq

structure FlagStore where
  flags : List FlagDef
  assignments : List FlagAssignment
  logs : List FlagLogEntry
  nextFlagId : Nat
  nextAssignId : Nat
deriving Repr, DecidableEq

def FlagStore.empty : FlagStore := ⟨[], [], [], 1, 1⟩

/-- `repo.ensure_flag_by_codigo`: select by codigo, insert if absent
(nombre defaults to the codigo).  Returns the flag id. -/
def ensure_flag_by_codigo (st : FlagStore) (codigo : String) : Nat × FlagStore :=
  match st.flags.find? (fun f => f.codigo = codigo) with
  | some f => (f.id, st)
  | none =>
      (st.nextFlagId,
       { st with
          flags := st.flags ++ [⟨st.nextFlagId, codigo, codigo, none⟩],
          nextFlagId := st.nextFlagId + 1 })

/-- The `INSERT ... ON CONFLICT (codigo) DO UPDATE` statements of
`flag_precio._ensure_flag`, `flag_fecha._ensure_flag` and
`flag_redcontactos.ensure_flag_exists`: upsert a flag definition by its
unique codigo, overwriting nombre/descripcion. -/
def upsertFlagDef (st : FlagStore) (codigo nombre descripcion : String) : FlagStore :=
  if (st.flags.find? (fun f => f.codigo = codigo)).isSome then
    { st with
        flags := st.flags.map (fun f =>
          if f.codigo = codigo then { f with nombre := nombre, descripcion := some descripcion }
          else f) }
  else
    { st with
        flags := st.flags ++ [⟨st.nextFlagId, codigo, nombre, some descripcion⟩],
        nextFlagId := st.nextFlagId + 1 }

/-- Mutation of the first assignment row matching the (licitacion, flag)
pair, as the ORM does on the object returned by `select ... .limit(1)`:
valor, fecha_detectado, comentario and fuente are overwritten in place. -/
def updateFirstAssign (lic fid : Nat) (valor : Bool) (fecha : Nat)
    (com fu : Option String) : List FlagAssignment → List FlagAssignment
  | [] => []
  | a :: rest =>
    if a.licitacion_id = lic ∧ a.flag_id = fid then
      { a with valor := valor, fecha_detectado := fecha, comentario := com, fuente := fu } :: rest
    else a :: updateFirstAssign lic fid valor fecha com fu rest

/-- `repo.set_flag_for_licitacion`: ensure the flag definition, upsert the
assignment for the (licitacion, flag) pair, append one log row.  The
`fecha` argument models the optional timestamp (`none` = `datetime.now()`,
rendered abstractly as time 0). -/
def set_flag_for_licitacion (st : FlagStore) (licitacion_id : Nat) (flag_codigo : String)
    (valor : Bool) (comentario fuente usuario_log : Option String)
    (fecha : Option Nat) : FlagStore :=
  let fecha := fecha.getD 0
  let (fid, st1) := ensure_flag_by_codigo st flag_codigo
  match st1.assignments.find? (fun a => a.licitacion_id = licitacion_id ∧ a.flag_id = fid) with
  | none =>
      let row : FlagAssignment :=
        ⟨st1.nextAssignId, licitacion_id, fid, valor, fecha, comentario, fuente⟩
      { st1 with
          assignments := st1.assignments ++ [row],
          nextAssignId := st1.nextAssignId + 1,
          logs := st1.logs ++
            [⟨row.id, valor, comentario, fuente, fecha, usuario_log.getD "sistema"⟩] }
  | some a =>
      { st1 with
          assignments :=
            updateFirstAssign licitacion_id fid valor fecha comentario fuente st1.assignments,
          logs := st1.logs ++
            [⟨a.id, valor, comentario, fuente, fecha, usuario_log.getD "sistema"⟩] }

/-- All assignment rows for a (licitacion, flag codigo) pair. -/
def assignsFor (st : FlagStore) (lic : Nat) (codigo : String) : List FlagAssignment :=
  match st.flags.find? (fun f => f.codigo = codigo) with
  | none => []
  | some f => st.assignments.filter (fun a => a.licitacion_id = lic ∧ a.flag_id = f.id)

def getFlagValor (st : FlagStore) (lic : Nat) (codigo : String) : Option Bool :=
  (assignsFor st lic codigo).head?.map (·.valor)

def getFlagComment (st : FlagStore) (lic : Nat) (codigo : String) : Option (Option String) :=
  (assignsFor st lic codigo).head?.map (·.comentario)

/-- The database uniqueness constraint `uq_flags_licitacion_flag`: no two
assignment rows share the same (licitacion_id, flag_id) pair. -/
def FlagStore.Wf (st : FlagStore) : Prop :=
  st.assignments.Pairwise
    (fun a b => ¬(a.licitacion_id = b.licitacion_id ∧ a.flag_id = b.flag_id))

instance (st : FlagStore) : Decidable st.Wf := by
  unfold FlagStore.Wf; infer_instance

/-! ## Business days (app/pipes/flag_fecha.py, `_business_days`) -/

/-- `cur.weekday() < 5 and (not holidays or cur.isoformat() not in holidays)`.
Day 0 is a Monday; with an empty holiday list the membership test
short-circuits exactly as the Python `not holidays or ...` does. -/
def isBusinessDay (holidays : List Int) (d : Int) : Bool :=
  decide (d % 7 < 5) && !(holidays.contains d)

/-- The while loop of `_business_days`: count business days among the `n`
consecutive days starting at `d` (the half-open interval). -/
def countBD (holidays : List Int) : Int → Nat → Nat
  | _, 0 => 0
  | d, n + 1 => (if isBusinessDay holidays d then 1 else 0) + countBD holidays (d + 1) n

/-- `_business_days(d1, d2, holidays)` on dates that are both present
(the `None` guard of the source is handled by the caller model). -/
def business_days (d1 d2 : Int) (holidays : List Int) : Nat :=
  if d2 < d1 then countBD holidays d2 (d1 - d2).toNat
  else countBD holidays d1 (d2 - d1).toNat

/-! ## Database model shared by the detectors -/

structure LicMeta where
  entidad : String
  modalidad : Option String
  act_econ : Option String
  estado : Option String
  cuantia : Option ℚ
deriving Repr, DecidableEq

structure CalRecord where
  archivo : String
  aceptacion_ofertas_ts : Option Int
  apertura_ofertas_ts : Option Int
deriving Repr, DecidableEq

structure Db where
  lics : List (Nat × LicMeta)
  chunks : List (Nat × List Bool)
  keymap : List (Nat × CalRecord)
  cosScore : Nat → Nat → ℚ

/-- `session.get(Licitacion, id)` / `SELECT ... FROM licitacion WHERE id = :id`. -/
def licFind (db : Db) (lic : Nat) : Option LicMeta :=
  (db.lics.find? (fun r => r.1 = lic)).map (·.2)

/-- Validity (one `Bool` per chunk row, in id order) of the stored chunk
vectors of one licitacion. -/
def chunksOf (db : Db) (lic : Nat) : List Bool :=
  ((db.chunks.find? (fun r => r.1 = lic)).map (·.2)).getD []

/-! ## Robust statistics (app/pipes/flag_precio.py) -/

def insertionSortQ (l : List ℚ) : List ℚ := l.insertionSort (· ≤ ·)

/-- `np.median`: sort, middle element for odd size, mean of the two middle
elements for even size (0 for the empty array, matching the guards of
`_robust_stats`). -/
def medianQ (l : List ℚ) : ℚ :=
  let s := insertionSortQ l
  let n := s.length
  if n = 0 then 0
  else if n % 2 = 1 then s.getD (n / 2) 0
  else (s.getD (n / 2 - 1) 0 + s.getD (n / 2) 0) / 2

/-- `np.percentile(arr, q)` with the default linear interpolation:
position `(n-1)·q/100` in the sorted array, interpolated between the two
surrounding elements. -/
def percentileQ (l : List ℚ) (q : ℚ) : ℚ :=
  let s := insertionSortQ l
  let n := s.length
  if n = 0 then 0
  else
    let pos : ℚ := q / 100 * ((n : ℚ) - 1)
    let i : Nat := (⌊pos⌋).toNat
    let frac : ℚ := pos - (i : ℚ)
    let lo := s.getD i 0
    let hi := s.getD (min (i + 1) (n - 1)) 0
    lo + frac * (hi - lo)

structure RobustStats where
  median : ℚ
  mad : ℚ
  z_mad : ℚ
  q1 : ℚ
  q3 : ℚ
  iqr : ℚ
  lower : ℚ
  upper : ℚ
  n : Nat
deriving Repr, DecidableEq

def RobustStats.zero : RobustStats := ⟨0, 0, 0, 0, 0, 0, 0, 0, 0⟩

/-- `_robust_stats(values, target)`.  `target = none` models both a
missing and a non-finite float target (`not np.isfinite(target)`). -/
def robust_stats (values : List ℚ) (target : Option ℚ) : RobustStats :=
  let sz := values.length
  let med := if sz ≠ 0 then medianQ values else 0
  let absdev := if sz ≠ 0 then values.map (fun v => |v - med|) else [0]
  let mad := medianQ absdev
  let z : ℚ :=
    match target with
    | none => 0
    | some t => if mad = 0 then 0 else 6745 / 10000 * (t - med) / mad
  let q1 := if sz ≠ 0 then percentileQ values 25 else 0
  let q3 := if sz ≠ 0 then percentileQ values 75 else 0
  let iqr := q3 - q1
  ⟨med, mad, z, q1, q3, iqr, q1 - 3 / 2 * iqr, q3 + 3 / 2 * iqr, sz⟩

/-! ## Price-deviation detector (app/pipes/flag_precio.py) -/

def TOP_K : Nat := 50
def MIN_NEIGHBORS_FOR_STATS : Nat := 10
def Z_MAD_THRESHOLD : ℚ := 14 / 5
def MAX_TARGET_CHUNKS : Nat := 128
def MAX_CANDIDATES : Nat := 5000
def MAX_CAND_PER_LIC_CHUNKS : Nat := 64
def PENALTY_ESTADO : ℚ := 1 / 10

structure FlagPrecioResult where
  licitacion_id : Nat
  n_comparables : Nat
  method : String
  stats : RobustStats
  target_cuantia : Option ℚ
  neighbor_ids : List Nat
deriving Repr, DecidableEq

/-- `_fetch_target_docvec` returns non-None iff at least one of the first
`MAX_TARGET_CHUNKS` chunk rows yields a usable vector. -/
def hasTargetDocvec (db : Db) (lic : Nat) : Bool :=
  ((chunksOf db lic).take MAX_TARGET_CHUNKS).any id

/-- `_fetch_candidate_chunks_docvecs` yields a pooled vector for a
candidate iff one of its first `MAX_CAND_PER_LIC_CHUNKS` chunk rows is
usable. -/
def hasCandDocvec (db : Db) (lic : Nat) : Bool :=
  ((chunksOf db lic).take MAX_CAND_PER_LIC_CHUNKS).any id

/-- `_fetch_candidate_headers`: candidates other than the target, with the
strict equality filters on modalidad / act_econ applied whenever the
target has that attribute (both STRICT_FILTER toggles are True in the
source), ordered by id, capped at MAX_CANDIDATES. -/
def fetchCandidateHeaders (db : Db) (lic : Nat) (t : LicMeta) : List (Nat × LicMeta) :=
  let keep : Nat × LicMeta → Bool := fun r =>
    decide (r.1 ≠ lic) &&
    (match t.modalidad with
     | none => true
     | some m => decide (r.2.modalidad = some m)) &&
    (match t.act_econ with
     | none => true
     | some a => decide (r.2.act_econ = some a))
  (((db.lics.filter keep).insertionSort (fun a b => a.1 ≤ b.1)).take MAX_CANDIDATES)

/-- `_penalty`: additive penalty when both estados are present and differ
(the source compares stripped strings; strings are modelled as already
stripped). -/
def penaltyEstado (penalty : ℚ) (t c : Option String) : ℚ :=
  match t, c with
  | some a, some b => if a ≠ b then penalty else 0
  | _, _ => 0

def noEmbeddingComment : String :=
  "Sin embedding/chunks válidos para el target; no se puede calcular similitud con comparables."

def noComparablesComment : String :=
  "No hay comparables con doc_vec (chunks) válidos para estimar precio."

/-- The decision of step 5 of `run_flag_precio_for_one` (lines 345-351):
flag value persisted once the statistics step is reached. -/
def precioFlagDecision (stats : RobustStats) (t_cuantia : Option ℚ) : Bool :=
  match t_cuantia with
  | none => false
  | some t =>
      decide (t < stats.lower) || decide (stats.upper < t) ||
        decide (Z_MAD_THRESHOLD ≤ |stats.z_mad|)

/-- Comment persisted on the statistics path.  The source formats the
numbers into Spanish prose; the model keeps the distinguishing prefix and
renders the numbers with `toString`. -/
def precioStatsComment (flag : Bool) (t : ℚ) (stats : RobustStats) (nVec : Nat) : String :=
  (if flag then "Posible outlier de precio: " else "Precio en rango: ") ++
    "cuantia=" ++ toString t ++ "; mediana=" ++ toString stats.median ++
    "; zMAD=" ++ toString stats.z_mad ++ "; vecinos=" ++ toString nVec

def noCuantiaComment : String :=
  "Licitación sin cuantía; no se evalúa outlier de precio."

/-- `run_flag_precio_for_one(session, licitacion_id, top_k, min_neighbors,
penalty_estado)`.  Raises (errors) when the licitacion does not exist;
otherwise returns the updated flag storage and the result dataclass. -/
def run_flag_precio_for_one (db : Db) (st : FlagStore) (licitacion_id : Nat)
    (top_k min_neighbors : Nat) (penalty_estado : ℚ) :
    Except String (FlagStore × FlagPrecioResult) :=
  match licFind db licitacion_id with
  | none => .error ("Licitación " ++ toString licitacion_id ++ " no existe")
  | some tMeta =>
    let st := upsertFlagDef st "red_precio" "Desviación de precio (comparables)"
      "Evalúa si la cuantía está fuera del rango robusto (IQR/zMAD) de comparables similares."
    let t_cuantia := tMeta.cuantia
    if !hasTargetDocvec db licitacion_id then
      let st := set_flag_for_licitacion st licitacion_id "red_precio" false
        (some noEmbeddingComment) (some "flag_precio(skip)") (some "pipeline") none
      .ok (st, ⟨licitacion_id, 0, "skip", RobustStats.zero, t_cuantia, []⟩)
    else
      let cands := fetchCandidateHeaders db licitacion_id tMeta
      let scored : List (Nat × ℚ × Option ℚ) :=
        cands.filterMap (fun r =>
          if hasCandDocvec db r.1 then
            some (r.1,
                  db.cosScore licitacion_id r.1 +
                    penaltyEstado penalty_estado tMeta.estado r.2.estado,
                  r.2.cuantia)
          else none)
      if scored.isEmpty then
        let st := set_flag_for_licitacion st licitacion_id "red_precio" false
          (some noComparablesComment) (some "flag_precio_chunks_mean_cos(skip)")
          (some "pipeline") none
        .ok (st, ⟨licitacion_id, 0, "skip", RobustStats.zero, t_cuantia, []⟩)
      else
        let sorted := scored.insertionSort (fun a b => a.2.1 ≤ b.2.1)
        let top := sorted.take (max top_k min_neighbors)
        let vec_cuantias : List ℚ := top.filterMap (fun x => x.2.2)
        let vec_ids : List Nat :=
          top.filterMap (fun x => if x.2.2.isSome then some x.1 else none)
        if vec_cuantias.length < min_neighbors then
          let st := set_flag_for_licitacion st licitacion_id "red_precio" false
            (some ("Solo " ++ toString vec_cuantias.length ++
              " comparables con cuantía; se requieren más para evaluación robusta."))
            (some "flag_precio_chunks_mean_cos(skip)") (some "pipeline") none
          .ok (st, ⟨licitacion_id, vec_cuantias.length, "chunks_mean_cos",
                RobustStats.zero, t_cuantia, vec_ids⟩)
        else
          let stats := robust_stats vec_cuantias t_cuantia
          let valor_flag := precioFlagDecision stats t_cuantia
          let comentario :=
            match t_cuantia with
            | none => noCuantiaComment
            | some t => precioStatsComment valor_flag t stats vec_cuantias.length
          let st := set_flag_for_licitacion st licitacion_id "red_precio" valor_flag
            (some comentario) (some "flag_precio_chunks_mean_cos") (some "pipeline") none
          .ok (st, ⟨licitacion_id, vec_cuantias.length, "chunks_mean_cos",
                stats, t_cuantia, vec_ids⟩)

/-! ## Contact-graph detector (app/pipes/flag_redcontactos.py) -/

/-- `_norm_name`: strip + lowercase, `None` for an empty string.  Strings
are modelled as already stripped. -/
def normName (s : String) : Option String :=
  if s = "" then none else some s.toLower

def normNameOpt (s : Option String) : Option String := s.bind normName

structure Conexion where
  con_id : Option String
  con_nombre : Option String
deriving Repr, DecidableEq

/-- The canonical Persona record both payload parsers normalise into.  The
claims under study start after parsing, so the payload is modelled already
in canonical form. -/
structure Persona where
  id : String
  nombre : String
  entidad : Option String
  ent_publica : Option Bool
  es_contratista : Bool
  conexiones : List Conexion
deriving Repr, DecidableEq

structure Aprobador where
  nombre : Option String
  entidad : Option String
  tipo_actor : Option String
deriving Repr, DecidableEq

structure Payload where
  personas : List Persona
  aprobadores : List Aprobador
  contratistas : List String
  threshold : Option Int
  holidays : List Int
deriving Repr, DecidableEq

def Payload.defaults : Payload := ⟨[], [], [], none, []⟩

/-- `name_to_id.setdefault(...)` of `build_graph`: first occurrence wins. -/
def nameFirstMap (people : List Persona) : List (String × String) :=
  people.foldl (fun m p =>
    if p.nombre ≠ "" ∧ (m.lookup p.nombre.toLower).isNone
    then m ++ [(p.nombre.toLower, p.id)] else m) []

/-- The `by_name` dict comprehensions of `pick_official_ids` /
`pick_contractor_ids`: a dict comprehension keeps the LAST occurrence. -/
def nameLastLookup (people : List Persona) (key : String) : Option String :=
  ((people.filter (fun p => p.nombre ≠ "")).reverse.find?
    (fun p => p.nombre.toLower = key)).map (·.id)

/-- `by_id = {p.id: p for p in people}`: last occurrence wins. -/
def byIdLookup (people : List Persona) (pid : String) : Option Persona :=
  people.reverse.find? (fun p => p.id = pid)

/-- Python `dict`/`set` of node ids modelled as an insertion-ordered
association list of neighbour lists; adding an edge appends missing nodes
and missing neighbours. -/
def adjAdd (adj : List (String × List String)) (k v : String) : List (String × List String) :=
  match adj.lookup k with
  | none => adj ++ [(k, [v])]
  | some ns =>
      if ns.contains v then adj
      else adj.map (fun e => if e.1 = k then (e.1, e.2 ++ [v]) else e)

def adjGet (adj : List (String × List String)) (k : String) : Option (List String) :=
  adj.lookup k

/-- `build_graph`: one empty adjacency entry per person, then a symmetric
edge per declared connection whose target resolves (by id, else by
case-insensitive name, first-seen id wins) and is not a self edge. -/
def build_graph (people : List Persona) : List (String × List String) :=
  let nameMap := nameFirstMap people
  let init := people.foldl (fun (adj : List (String × List String)) p =>
    if (adj.lookup p.id).isSome then adj else adj ++ [(p.id, [])]) []
  people.foldl (fun adj p =>
    p.conexiones.foldl (fun adj c =>
      let target :=
        match c.con_id with
        | some tid => if tid = "" then (normNameOpt c.con_nombre).bind nameMap.lookup else some tid
        | none => (normNameOpt c.con_nombre).bind nameMap.lookup
      match target with
      | none => adj
      | some t => if t ≠ p.id then adjAdd (adjAdd adj p.id t) t p.id else adj) adj) init

/-- The inner `for nb in adj.get(node, [])` loop of `shortest_path`:
either returns the found path, or the extended seen set and the queue
items to append. -/
def scanNbrs (dst : String) (maxDepth : Nat) (path : List String) :
    List String → List String → List (String × List String) →
    Option (List String) × List String × List (String × List String)
  | [], seen, qAcc => (none, seen, qAcc)
  | nb :: rest, seen, qAcc =>
    if seen.contains nb then scanNbrs dst maxDepth path rest seen qAcc
    else
      let newp := path ++ [nb]
      if nb = dst then (some newp, seen, qAcc)
      else if newp.length - 1 ≤ maxDepth then
        scanNbrs dst maxDepth path rest (seen ++ [nb]) (qAcc ++ [(nb, newp)])
      else scanNbrs dst maxDepth path rest seen qAcc

/-- The BFS while loop.  The source contains
`if len(path) - 1 >= max_depth: pass`, a conditional with no effect, which
is therefore absent from the model.  `fuel` bounds the number of queue
pops; every enqueued node is simultaneously added to `seen` and nodes
enter `seen` at most once, so pops never exceed one plus the total number
of neighbour entries and the fuel chosen by `shortest_path` below is never
exhausted. -/
def bfsLoop (adj : List (String × List String)) (dst : String) (maxDepth : Nat) :
    Nat → List (String × List String) → List String → Option (List String)
  | 0, _, _ => none
  | _, [], _ => none
  | fuel + 1, (node, path) :: q, seen =>
    match scanNbrs dst maxDepth path ((adjGet adj node).getD []) seen [] with
    | (some found, _, _) => some found
    | (none, seen1, newQ) => bfsLoop adj dst maxDepth fuel (q ++ newQ) seen1

def bfsFuel (adj : List (String × List String)) : Nat :=
  adj.foldl (fun n e => n + 1 + e.2.length) 1

/-- `shortest_path(adj, src, dst, max_depth)`. -/
def shortest_path (adj : List (String × List String)) (src dst : String)
    (maxDepth : Nat) : Option (List String) :=
  if src = dst ∨ (adjGet adj src).isNone ∨ (adjGet adj dst).isNone then none
  else bfsLoop adj dst maxDepth (bfsFuel adj) [(src, [src])] [src]

/-- `pick_official_ids`. -/
def pick_official_ids (lic_entidad : String) (people : List Persona)
    (aprobadores : List Aprobador) : List String :=
  let lic_ent := normName lic_entidad
  let ids : List String := aprobadores.filterMap (fun ap =>
    if normNameOpt ap.tipo_actor = some "publico" ∧
        (lic_ent.isNone ∨ normNameOpt ap.entidad = lic_ent)
    then some (ap.nombre.getD "") else none)
  let mapped : List String :=
    (ids.filterMap (fun n => (normName n).bind (nameLastLookup people))).filter (· ≠ "")
  let mapped :=
    if mapped.isEmpty then
      people.filterMap (fun p =>
        if p.ent_publica = some true ∧ lic_ent.isSome ∧ normNameOpt p.entidad = lic_ent
        then some p.id else none)
    else mapped
  mapped.eraseDups

/-- `pick_contractor_ids`. -/
def pick_contractor_ids (people : List Persona) (contratistas : List String) : List String :=
  let first := (people.filter (·.es_contratista)).map (·.id)
  let extra := contratistas.filterMap (fun n => (normName n).bind (nameLastLookup people))
  (first ++ extra).eraseDups

/-- `score_path`: 30 for a direct (one-hop, two-node) path, else 18. -/
def score_path (path : List String) : Int :=
  if path.length = 2 then 30 else 18

structure RedMatch where
  oficial_id : String
  oficial_nombre : String
  contratista_id : String
  contratista_nombre : String
  path_ids : List String
  path_len : Nat
  score : Int
deriving Repr, DecidableEq

/-- One iteration of the double loop of `run_red_contactos`: skip the pair
when no bounded path exists, otherwise append the match and update the
best (strictly higher score wins, first maximum kept). -/
def collectStep (adj : List (String × List String)) (people : List Persona)
    (acc : List RedMatch × Option (String × String × List String) × Int)
    (oc : String × String) : List RedMatch × Option (String × String × List String) × Int :=
  match shortest_path adj oc.1 oc.2 2 with
  | none => acc
  | some path =>
    let s := score_path path
    let (ms, best, bestScore) := acc
    let (best1, bestScore1) :=
      if s > bestScore then (some (oc.1, oc.2, path), s) else (best, bestScore)
    (ms ++ [⟨oc.1, ((byIdLookup people oc.1).map (·.nombre)).getD oc.1,
             oc.2, ((byIdLookup people oc.2).map (·.nombre)).getD oc.2,
             path, path.length - 1, s⟩],
     best1, bestScore1)

/-- The double loop of `run_red_contactos` (officials outer, contractors
inner): collect every pair with a bounded path, tracking the best match by
strictly increasing score. -/
def collectMatches (adj : List (String × List String)) (people : List Persona)
    (official_ids contractor_ids : List String) :
    List RedMatch × Option (String × String × List String) × Int :=
  (official_ids.flatMap (fun o => contractor_ids.map (fun c => (o, c)))).foldl
    (collectStep adj people) ([], none, -(10 ^ 9))

structure RedDetail where
  lic_entidad : String
  official_ids : List String
  contractor_ids : List String
  matchesFound : List RedMatch
deriving Repr, DecidableEq

inductive RedResult where
  | licMissing
  | emptyJson
  | noPersons
  | done (flag_applied : Bool) (comment : String) (detail : RedDetail)
deriving Repr, DecidableEq

/-- Names and hop counts are rendered with `toString` in place of the
Spanish f-string formatting of the source. -/
def redBestComment (people : List Persona) (oid cid : String) (saltos : Nat)
    (total : Nat) : String :=
  "[red_contactos] Mejor coincidencia: " ++
    (((byIdLookup people oid).map (·.nombre)).getD oid) ++ " y " ++
    (((byIdLookup people cid).map (·.nombre)).getD cid) ++ " en " ++
    toString saltos ++ " salto(s). Total coincidencias: " ++ toString total ++ "."

def redHighDegComment (people : List Persona) (oid : String) (deg : Nat) : String :=
  "[red_contactos] Sin caminos de 2 saltos o menos; oficial con conectividad alta: " ++
    (((byIdLookup people oid).map (·.nombre)).getD oid) ++ " (grado=" ++ toString deg ++ ")."

def redNoEvidenceComment : String :=
  "[red_contactos] No hay suficientes evidencias de conexión."

/-- `run_red_contactos(db, licitacion_id, json_override)`.  A `none`
payload models a falsy (`None` or empty) json_override. -/
def run_red_contactos (db : Db) (st : FlagStore) (licitacion_id : Nat)
    (json_override : Option Payload) : FlagStore × RedResult :=
  match licFind db licitacion_id with
  | none => (st, .licMissing)
  | some lic =>
    match json_override with
    | none => (st, .emptyJson)
    | some payload =>
      let people := payload.personas
      if people.isEmpty then (st, .noPersons)
      else
        let adj := build_graph people
        let official_ids := pick_official_ids lic.entidad people payload.aprobadores
        let contractor_ids := pick_contractor_ids people payload.contratistas
        let (ms, best, _) := collectMatches adj people official_ids contractor_ids
        let (apply_flag, comment) :=
          match best with
          | some (oid, cid, path) =>
              (true, redBestComment people oid cid (path.length - 1) ms.length)
          | none =>
              let degs := official_ids.map (fun oid => (oid, ((adjGet adj oid).getD []).length))
              let degsSorted := degs.insertionSort (fun a b => b.2 ≤ a.2)
              match degsSorted with
              | [] => (false, redNoEvidenceComment)
              | (oid, dg) :: _ =>
                  if oid ≠ "" ∧ dg ≥ 5 then (false, redHighDegComment people oid dg)
                  else (false, redNoEvidenceComment)
        let st := upsertFlagDef st "red_contac" "Red de contactos"
          "Posible conflicto por red de contactos"
        let st := set_flag_for_licitacion st licitacion_id "red_contac" apply_flag
          (some comment) (some "pipeline.redcontactos(json-v2)") (some "pipeline") none
        (st, .done apply_flag comment ⟨lic.entidad, official_ids, contractor_ids, ms⟩)

/-! ## Date-gap detector (app/pipes/flag_fecha.py) -/

structure FechaDetail where
  dias_habiles : Nat
  threshold : Int
  archivo : String
  aceptacion_ofertas_ts : Int
  apertura_ofertas_ts : Int
deriving Repr, DecidableEq

inductive FechaResult where
  | err (reason : String)
  | done (flag_applied : Bool) (detail : FechaDetail)
deriving Repr, DecidableEq

def fechaComment (dias : Nat) (threshold : Int) (archivo : String) : String :=
  "Gap: " ++ toString dias ++ " días hábiles (archivo=" ++ archivo ++
    "). Se espera un máximo de " ++ toString threshold ++ " días hábiles."

/-- `run_flag_fecha_for_one(db, licitacion_id, json_override)`.  A `none`
payload models a falsy json_override (`json_override or {}` yields the
defaults: threshold 5, no holidays). -/
def run_flag_fecha_for_one (db : Db) (st : FlagStore) (licitacion_id : Nat)
    (json_override : Option Payload) : FlagStore × FechaResult :=
  let p := json_override.getD Payload.defaults
  let threshold : Int := p.threshold.getD 5
  let holidays := p.holidays
  match (db.keymap.find? (fun r => r.1 = licitacion_id)).map (·.2) with
  | none => (st, .err "sin_calendario")
  | some row =>
    match row.aceptacion_ofertas_ts, row.apertura_ofertas_ts with
    | some acep, some aper =>
        let dias := business_days acep aper holidays
        let st := upsertFlagDef st "F-GAP-APERT" "Gap aceptación vs apertura (días hábiles)"
          "Diferencia de días hábiles entre la Aceptación de ofertas y la Apertura de Ofertas."
        let st := set_flag_for_licitacion st licitacion_id "F-GAP-APERT"
          (decide ((dias : Int) > threshold)) (some (fechaComment dias threshold row.archivo))
          (some "pipe:gap_fechas") (some "pipeline") none
        (st, .done (decide ((dias : Int) > threshold)) ⟨dias, threshold, row.archivo, acep, aper⟩)
    | _, _ => (st, .err "fechas_incompletas")

/-! ## Orchestrator (app/pipes/pipeline.py) -/

/-- Both optional detector modules import successfully in the repository,
so HAS_PRECIO and HAS_GAP_FECHA are True. -/
def get_computable_flows : List String := ["red_precio", "gap_fechas"]

def get_interactive_flows : List String := ["red_contactos"]

def get_available_flows : List String :=
  get_computable_flows ++ get_interactive_flows ++ ["all"]

structure PrecioDetail where
  method : String
  n_comparables : Nat
  median : ℚ
  z_mad : ℚ
  lower : ℚ
  upper : ℚ
  neighbors : List Nat
deriving Repr, DecidableEq

inductive FlowResult where
  | contactos (r : RedResult)
  | precio (ok : Bool) (flag_applied : Bool) (detail : PrecioDetail)
  | fecha (r : FechaResult)
deriving Repr, DecidableEq

/-- One element of the `applied` list: either the fast-fail dict
`{"flow": ..., "ok": False, "error": ...}` or `{"flow": ..., "result": ...}`. -/
structure FlowEntry where
  flow : String
  ok : Option Bool
  error : Option String
  result : Option FlowResult
deriving Repr, DecidableEq

def jsonRequiredEntry : FlowEntry := ⟨"red_contactos", some false, some "json_required", none⟩

/-- The recomputation of `flag_applied` inside `_run_one_flow` for the
red_precio flow (pipeline.py lines 66-70): it is derived from the returned
statistics, not read back from storage. -/
def pipelinePrecioFlag (res : FlagPrecioResult) : Bool :=
  match res.target_cuantia with
  | none => false
  | some t =>
      decide (t < res.stats.lower) || decide (res.stats.upper < t) ||
        decide ((14 : ℚ) / 5 ≤ |res.stats.z_mad|)

/-- `_run_one_flow(db, lic_id, flow, json_override)`. -/
def run_one_flow (db : Db) (st : FlagStore) (lic_id : Nat) (flow : String)
    (json_override : Option Payload) : Except String (FlagStore × FlowEntry) :=
  if flow = "red_contactos" then
    match json_override with
    | none => .ok (st, jsonRequiredEntry)
    | some p =>
        let (st1, r) := run_red_contactos db st lic_id (some p)
        .ok (st1, ⟨"red_contactos", none, none, some (.contactos r)⟩)
  else if flow = "red_precio" then
    match run_flag_precio_for_one db st lic_id TOP_K MIN_NEIGHBORS_FOR_STATS PENALTY_ESTADO with
    | .error e => .error e
    | .ok (st1, res) =>
        .ok (st1, ⟨"red_precio", none, none,
          some (.precio true (pipelinePrecioFlag res)
            ⟨res.method, res.n_comparables, res.stats.median, res.stats.z_mad,
             res.stats.lower, res.stats.upper, res.neighbor_ids⟩)⟩)
  else if flow = "gap_fechas" then
    let (st1, r) := run_flag_fecha_for_one db st lic_id json_override
    .ok (st1, ⟨"gap_fechas", none, none, some (.fecha r)⟩)
  else .error ("Flow desconocido o no disponible: " ++ flow)

structure RunOneResult where
  licitacion_id : Nat
  applied : List FlowEntry
deriving Repr, DecidableEq

/-- The list comprehension
`[_run_one_flow(db, licitacion_id, f, json_override) for f in flows]`:
sequential, threading storage; an exception in one element aborts the
whole comprehension. -/
def runFlows (db : Db) (lic_id : Nat) (json_override : Option Payload) :
    FlagStore → List String → Except String (FlagStore × List FlowEntry)
  | st, [] => .ok (st, [])
  | st, f :: fs =>
    match run_one_flow db st lic_id f json_override with
    | .error e => .error e
    | .ok (st1, e) =>
      match runFlows db lic_id json_override st1 fs with
      | .error e2 => .error e2
      | .ok (st2, es) => .ok (st2, e :: es)

/-- `run_flow_for_one(db, licitacion_id, flow, json_override)`. -/
def run_flow_for_one (db : Db) (st : FlagStore) (licitacion_id : Nat) (flow : String)
    (json_override : Option Payload) : Except String (FlagStore × RunOneResult) :=
  let flows := if flow = "all" then get_computable_flows else [flow]
  match runFlows db licitacion_id json_override st flows with
  | .error e => .error e
  | .ok (st1, applied) => .ok (st1, ⟨licitacion_id, applied⟩)

/-- The id cursor of `run_flow_batch` when `lic_ids` is not given:
`SELECT id FROM public.licitacion [WHERE ...] ORDER BY id [LIMIT n]`.
The free-text WHERE clause is modelled as a row predicate; a `none`
predicate is an absent clause.  Python `if limit:` treats both `None` and
`0` as no LIMIT. -/
def resolveIds (db : Db) (whereClause : Option (Nat → LicMeta → Bool))
    (limit : Option Nat) : List Nat :=
  let rows := db.lics.filter (fun r =>
    match whereClause with
    | none => true
    | some p => p r.1 r.2)
  let ids := (rows.map (·.1)).insertionSort (· ≤ ·)
  match limit with
  | some l => if l ≠ 0 then ids.take l else ids
  | none => ids

/-- The per-id loop of `run_flow_batch`: sequential `run_flow_for_one`
calls with no exception handling. -/
def runBatchLoop (db : Db) (ksflow : String) (json_override : Option Payload) :
    FlagStore → List Nat → Except String (FlagStore × List RunOneResult)
  | st, [] => .ok (st, [])
  | st, lid :: rest =>
    match run_flow_for_one db st lid ksflow json_override with
    | .error e => .error e
    | .ok (st1, r) =>
      match runBatchLoop db ksflow json_override st1 rest with
      | .error e2 => .error e2
      | .ok (st2, rs) => .ok (st2, r :: rs)

/-- `run_flow_batch(db, ksflow, lic_ids, where_clause, limit, json_override)`.
`lic_ids = none` models the argument absent; `some []` an explicit empty
list (both are falsy for the red_contactos validation, but only `None`
triggers id auto-discovery). -/
def run_flow_batch (db : Db) (st : FlagStore) (ksflow : String)
    (lic_ids : Option (List Nat)) (whereClause : Option (Nat → LicMeta → Bool))
    (limit : Option Nat) (json_override : Option Payload) :
    Except String (FlagStore × List RunOneResult) :=
  if ksflow = "all" ∨ ksflow ∈ get_computable_flows then
    let ids := match lic_ids with
      | none => resolveIds db whereClause limit
      | some l => l
    runBatchLoop db ksflow json_override st ids
  else if ksflow = "red_contactos" then
    if json_override.isNone then
      .error "red_contactos requiere json_override (payload PersonasPayload)."
    else if lic_ids.getD [] = [] then
      .error "red_contactos requiere lic_ids (lista de IDs a evaluar)."
    else
      runBatchLoop db ksflow json_override st (lic_ids.getD [])
  else .error ("Flow desconocido: " ++ ksflow)

/-! ## Helper lemmas about the flag storage -/

theorem find?_none_filter_nil {α : Type} {p : α → Bool} {l : List α}
    (h : l.find? p = none) : l.filter p = [] :=
  List.filter_eq_nil_iff.mpr (List.find?_eq_none.mp h)

theorem filter_eq_single_of_find? {α : Type} {p : α → Bool} {l : List α} {a : α}
    (h : l.find? p = some a)
    (hu : l.Pairwise (fun x y => ¬(p x = true ∧ p y = true))) : l.filter p = [a] := by
  induction l with
  | nil => simp at h
  | cons b t ih =>
    rcases List.pairwise_cons.mp hu with ⟨hb, ht⟩
    cases hp : p b with
    | false =>
        rw [List.find?_cons_of_neg _ (by simp [hp])] at h
        rw [List.filter_cons_of_neg (by simp [hp])]
        exact ih h ht
    | true =>
        rw [List.find?_cons_of_pos _ hp] at h
        cases h
        rw [List.filter_cons_of_pos hp]
        have : t.filter p = [] := by
          apply List.filter_eq_nil_iff.mpr
          intro x hx hpx
          exact hb x hx ⟨hp, hpx⟩
        rw [this]

theorem updateFirstAssign_find?_none {lic fid : Nat} {v : Bool} {fecha : Nat}
    {com fu : Option String} {l : List FlagAssignment}
    (h : l.find? (fun a => a.licitacion_id = lic ∧ a.flag_id = fid) = none) :
    updateFirstAssign lic fid v fecha com fu l = l := by
  induction l with
  | nil => rfl
  | cons b t ih =>
    by_cases hb : b.licitacion_id = lic ∧ b.flag_id = fid
    · rw [List.find?_cons_of_pos _ (by simpa using hb)] at h; cases h
    · rw [List.find?_cons_of_neg _ (by simpa using hb)] at h
      rw [updateFirstAssign, if_neg hb, ih h]

theorem updateFirstAssign_of_find?_some {lic fid : Nat} (v : Bool) (fecha : Nat)
    (com fu : Option String) {l : List FlagAssignment} {a : FlagAssignment}
    (h : l.find? (fun a => a.licitacion_id = lic ∧ a.flag_id = fid) = some a) :
    ∃ l₁ l₂, l = l₁ ++ a :: l₂ ∧
      l₁.find? (fun a => a.licitacion_id = lic ∧ a.flag_id = fid) = none ∧
      (a.licitacion_id = lic ∧ a.flag_id = fid) ∧
      updateFirstAssign lic fid v fecha com fu l =
        l₁ ++ { a with valor := v, fecha_detectado := fecha,
                       comentario := com, fuente := fu } :: l₂ := by
  induction l with
  | nil => simp at h
  | cons b t ih =>
    by_cases hb : b.licitacion_id = lic ∧ b.flag_id = fid
    · rw [List.find?_cons_of_pos _ (by simpa using hb)] at h
      cases h
      exact ⟨[], t, rfl, rfl, hb, by rw [updateFirstAssign, if_pos hb]; rfl⟩
    · rw [List.find?_cons_of_neg _ (by simpa using hb)] at h
      obtain ⟨l₁, l₂, heq, hnone, hpair, hupd⟩ := ih h
      refine ⟨b :: l₁, l₂, by rw [heq]; rfl, ?_, hpair, ?_⟩
      · rw [List.find?_cons_of_neg _ (by simpa using hb), hnone]
      · rw [updateFirstAssign, if_neg hb, hupd]; rfl

theorem updateFirstAssign_self {lic fid : Nat} {v : Bool} {fecha : Nat}
    {com fu : Option String} {l : List FlagAssignment} {a : FlagAssignment}
    (h : l.find? (fun a => a.licitacion_id = lic ∧ a.flag_id = fid) = some a)
    (hv : a.valor = v) (hf : a.fecha_detectado = fecha)
    (hc : a.comentario = com) (hfu : a.fuente = fu) :
    updateFirstAssign lic fid v fecha com fu l = l := by
  obtain ⟨l₁, l₂, heq, -, -, hupd⟩ := updateFirstAssign_of_find?_some v fecha com fu h
  rw [hupd, heq]
  congr 1
  congr 1
  cases a
  simp_all

theorem ensure_flag_spec (st : FlagStore) (c : String) :
    (ensure_flag_by_codigo st c).2.assignments = st.assignments ∧
    (ensure_flag_by_codigo st c).2.logs = st.logs ∧
    (ensure_flag_by_codigo st c).2.nextAssignId = st.nextAssignId ∧
    ∃ f, (ensure_flag_by_codigo st c).2.flags.find? (fun x => x.codigo = c) = some f ∧
      f.id = (ensure_flag_by_codigo st c).1 := by
  cases h : st.flags.find? (fun x => x.codigo = c) with
  | some f =>
      have hE : ensure_flag_by_codigo st c = (f.id, st) := by
        simp only [ensure_flag_by_codigo, h]
      rw [hE]
      exact ⟨rfl, rfl, rfl, f, h, rfl⟩
  | none =>
      have hE : ensure_flag_by_codigo st c =
          (st.nextFlagId,
           { st with flags := st.flags ++ [⟨st.nextFlagId, c, c, none⟩],
                     nextFlagId := st.nextFlagId + 1 }) := by
        simp only [ensure_flag_by_codigo, h]
      rw [hE]
      refine ⟨rfl, rfl, rfl, ⟨st.nextFlagId, c, c, none⟩, ?_, rfl⟩
      rw [List.find?_append, h]
      simp [List.find?]

/-- Full characterisation of one `set_flag_for_licitacion` call on a store
satisfying the uniqueness constraint: the flag definitions are those left
by the ensure step, the (licitacion, flag) pair ends up with exactly one
assignment row carrying exactly the written fields, and the log grows by
exactly one entry.  The function is total: no call raises. -/
theorem set_flag_full (st : FlagStore) (lic : Nat) (c : String) (v : Bool)
    (com fu usr : Option String) (fecha : Option Nat) (hwf : st.Wf) :
    ∃ aid fid f,
      (set_flag_for_licitacion st lic c v com fu usr fecha).flags =
        (ensure_flag_by_codigo st c).2.flags ∧
      (set_flag_for_licitacion st lic c v com fu usr fecha).flags.find?
        (fun x => x.codigo = c) = some f ∧ f.id = fid ∧
      (set_flag_for_licitacion st lic c v com fu usr fecha).assignments.find?
        (fun a => a.licitacion_id = lic ∧ a.flag_id = fid) =
        some ⟨aid, lic, fid, v, fecha.getD 0, com, fu⟩ ∧
      assignsFor (set_flag_for_licitacion st lic c v com fu usr fecha) lic c =
        [⟨aid, lic, fid, v, fecha.getD 0, com, fu⟩] ∧
      (set_flag_for_licitacion st lic c v com fu usr fecha).logs.length =
        st.logs.length + 1 := by
  obtain ⟨hassign, hlogs, -, f, hfind, hfid⟩ := ensure_flag_spec st c
  rcases hE : ensure_flag_by_codigo st c with ⟨fid0, st10⟩
  rw [hE] at hassign hlogs hfind hfid
  simp only at hassign hlogs hfind hfid
  cases hf2 : st10.assignments.find?
      (fun a => a.licitacion_id = lic ∧ a.flag_id = fid0) with
  | none =>
      have hst : set_flag_for_licitacion st lic c v com fu usr fecha =
          { st10 with
              assignments := st10.assignments ++
                [⟨st10.nextAssignId, lic, fid0, v, fecha.getD 0, com, fu⟩],
              nextAssignId := st10.nextAssignId + 1,
              logs := st10.logs ++
                [⟨st10.nextAssignId, v, com, fu, fecha.getD 0, usr.getD "sistema"⟩] } := by
        simp only [set_flag_for_licitacion, hE, hf2]
      refine ⟨st10.nextAssignId, fid0, f, ?_, ?_, hfid, ?_, ?_, ?_⟩
      · rw [hst]
      · rw [hst]; exact hfind
      · rw [hst]
        simp only [List.find?_append, hf2, Option.none_or]
        simp [List.find?]
      · rw [hst]
        simp only [assignsFor, hfind, hfid]
        rw [List.filter_append, find?_none_filter_nil hf2]
        simp [List.filter]
      · rw [hst]
        simp [hlogs]
  | some a =>
      obtain ⟨l₁, l₂, heq, hnone, hpair, hupd⟩ :=
        updateFirstAssign_of_find?_some v (fecha.getD 0) com fu hf2
      have hanew : ({ a with valor := v, fecha_detectado := fecha.getD 0,
                             comentario := com, fuente := fu } : FlagAssignment) =
          FlagAssignment.mk a.id lic fid0 v (fecha.getD 0) com fu := by
        cases a
        simp only at hpair
        simp [hpair.1, hpair.2]
      have hst : set_flag_for_licitacion st lic c v com fu usr fecha =
          { st10 with
              assignments :=
                updateFirstAssign lic fid0 v (fecha.getD 0) com fu st10.assignments,
              logs := st10.logs ++
                [⟨a.id, v, com, fu, fecha.getD 0, usr.getD "sistema"⟩] } := by
        simp only [set_flag_for_licitacion, hE, hf2]
      have hl2nil : l₂.filter
          (fun x => decide (x.licitacion_id = lic ∧ x.flag_id = fid0)) = [] := by
        have hPW : st10.assignments.Pairwise
            (fun x y => ¬(x.licitacion_id = y.licitacion_id ∧ x.flag_id = y.flag_id)) := by
          rw [hassign]; exact hwf
        rw [heq] at hPW
        have hPW2 := hPW.sublist (List.sublist_append_right l₁ (a :: l₂))
        rcases List.pairwise_cons.mp hPW2 with ⟨ha, -⟩
        apply List.filter_eq_nil_iff.mpr
        intro x hx hpx
        simp only [decide_eq_true_eq] at hpx
        exact ha x hx ⟨by rw [hpair.1, hpx.1], by rw [hpair.2, hpx.2]⟩
      refine ⟨a.id, fid0, f, ?_, ?_, hfid, ?_, ?_, ?_⟩
      · rw [hst]
      · rw [hst]; exact hfind
      · rw [hst]
        simp only [hupd, hanew, List.find?_append, hnone, Option.none_or]
        rw [List.find?_cons_of_pos _ (by simp)]
      · rw [hst]
        simp only [assignsFor, hfind, hfid, hupd, hanew]
        rw [List.filter_append, find?_none_filter_nil hnone]
        rw [List.filter_cons_of_pos (by simp), hl2nil]
        simp [List.filter]
      · rw [hst]
        simp [hlogs]

/-- After `set_flag_for_licitacion` the stored value and comment for the
pair are exactly the written ones, and the log grew by one entry. -/
theorem set_flag_spec (st : FlagStore) (lic : Nat) (c : String) (v : Bool)
    (com fu usr : Option String) (fecha : Option Nat) (hwf : st.Wf) :
    getFlagValor (set_flag_for_licitacion st lic c v com fu usr fecha) lic c = some v ∧
    getFlagComment (set_flag_for_licitacion st lic c v com fu usr fecha) lic c = some com ∧
    (set_flag_for_licitacion st lic c v com fu usr fecha).logs.length =
      st.logs.length + 1 := by
  obtain ⟨aid, fid, f, -, -, -, -, hassigns, hlogs⟩ :=
    set_flag_full st lic c v com fu usr fecha hwf
  refine ⟨?_, ?_, hlogs⟩
  · rw [getFlagValor, hassigns]; rfl
  · rw [getFlagComment, hassigns]; rfl

/-- A second `set_flag_for_licitacion` call with identical arguments
changes neither the flag definitions nor the assignment rows; it only
appends one more log entry. -/
theorem set_flag_idem (st : FlagStore) (lic : Nat) (c : String) (v : Bool)
    (com fu usr : Option String) (fecha : Option Nat) (hwf : st.Wf) :
    (set_flag_for_licitacion (set_flag_for_licitacion st lic c v com fu usr fecha)
        lic c v com fu usr fecha).assignments =
      (set_flag_for_licitacion st lic c v com fu usr fecha).assignments ∧
    (set_flag_for_licitacion (set_flag_for_licitacion st lic c v com fu usr fecha)
        lic c v com fu usr fecha).flags =
      (set_flag_for_licitacion st lic c v com fu usr fecha).flags ∧
    (set_flag_for_licitacion (set_flag_for_licitacion st lic c v com fu usr fecha)
        lic c v com fu usr fecha).logs.length =
      (set_flag_for_licitacion st lic c v com fu usr fecha).logs.length + 1 := by
  obtain ⟨aid, fid, f, -, hfind1, hfid, hfindrow, -, -⟩ :=
    set_flag_full st lic c v com fu usr fecha hwf
  generalize hs1 : set_flag_for_licitacion st lic c v com fu usr fecha = s1 at hfind1 hfindrow ⊢
  have hE2 : ensure_flag_by_codigo s1 c = (f.id, s1) := by
    simp only [ensure_flag_by_codigo, hfind1]
  have hfindrow' : s1.assignments.find?
      (fun a => a.licitacion_id = lic ∧ a.flag_id = f.id) =
      some ⟨aid, lic, fid, v, fecha.getD 0, com, fu⟩ := by
    rw [hfid]; exact hfindrow
  have hupd : updateFirstAssign lic f.id v (fecha.getD 0) com fu s1.assignments =
      s1.assignments :=
    updateFirstAssign_self hfindrow' rfl rfl rfl rfl
  have hst2 : set_flag_for_licitacion s1 lic c v com fu usr fecha =
      { s1 with
          assignments := s1.assignments,
          logs := s1.logs ++ [⟨aid, v, com, fu, fecha.getD 0, usr.getD "sistema"⟩] } := by
    simp only [set_flag_for_licitacion, hE2, hfindrow', hupd]
  rw [hst2]
  exact ⟨rfl, rfl, by simp⟩

/-! ## Claim C3 -/

/-- C3: calling `set_flag_for_licitacion` twice in a row with identical
arguments leaves exactly one assignment row for the (entity, flag) pair,
with the same value/comment as after the first call (indeed the whole
assignment table is unchanged by the second call), while the append-only
log grows by exactly one entry per call; the function is total, so in
particular re-writing an unchanged value never raises. -/
theorem c3_set_flag_idempotent_upsert_append_only_log
    (st : FlagStore) (lic : Nat) (c : String) (v : Bool)
    (com fu usr : Option String) (fecha : Option Nat) (hwf : st.Wf) :
    (assignsFor (set_flag_for_licitacion (set_flag_for_licitacion st lic c v com fu usr fecha)
        lic c v com fu usr fecha) lic c).length = 1 ∧
    (set_flag_for_licitacion (set_flag_for_licitacion st lic c v com fu usr fecha)
        lic c v com fu usr fecha).assignments =
      (set_flag_for_licitacion st lic c v com fu usr fecha).assignments ∧
    getFlagValor (set_flag_for_licitacion (set_flag_for_licitacion st lic c v com fu usr fecha)
        lic c v com fu usr fecha) lic c = some v ∧
    getFlagComment (set_flag_for_licitacion (set_flag_for_licitacion st lic c v com fu usr fecha)
        lic c v com fu usr fecha) lic c = some com ∧
    (set_flag_for_licitacion st lic c v com fu usr fecha).logs.length =
      st.logs.length + 1 ∧
    (set_flag_for_licitacion (set_flag_for_licitacion st lic c v com fu usr fecha)
        lic c v com fu usr fecha).logs.length = st.logs.length + 2 := by
  obtain ⟨aid, fid, f, -, -, -, -, hassigns1, hlogs1⟩ :=
    set_flag_full st lic c v com fu usr fecha hwf
  obtain ⟨h2a, h2f, h2l⟩ := set_flag_idem st lic c v com fu usr fecha hwf
  have hsame : assignsFor (set_flag_for_licitacion
      (set_flag_for_licitacion st lic c v com fu usr fecha) lic c v com fu usr fecha) lic c =
      assignsFor (set_flag_for_licitacion st lic c v com fu usr fecha) lic c := by
    simp only [assignsFor, h2f, h2a]
  refine ⟨?_, h2a, ?_, ?_, hlogs1, by omega⟩
  · rw [hsame, hassigns1]; rfl
  · rw [getFlagValor, hsame, hassigns1]; rfl
  · rw [getFlagComment, hsame, hassigns1]; rfl

/-- Witness for C3 at a concrete store and concrete arguments. -/
theorem c3_witness :
    (assignsFor (set_flag_for_licitacion (set_flag_for_licitacion FlagStore.empty 1 "red_precio"
        true (some "c") (some "s") (some "u") (some 5))
        1 "red_precio" true (some "c") (some "s") (some "u") (some 5)) 1 "red_precio").length = 1 ∧
    (set_flag_for_licitacion (set_flag_for_licitacion FlagStore.empty 1 "red_precio"
        true (some "c") (some "s") (some "u") (some 5))
        1 "red_precio" true (some "c") (some "s") (some "u") (some 5)).assignments =
      (set_flag_for_licitacion FlagStore.empty 1 "red_precio"
        true (some "c") (some "s") (some "u") (some 5)).assignments ∧
    getFlagValor (set_flag_for_licitacion (set_flag_for_licitacion FlagStore.empty 1 "red_precio"
        true (some "c") (some "s") (some "u") (some 5))
        1 "red_precio" true (some "c") (some "s") (some "u") (some 5)) 1 "red_precio" = some true ∧
    getFlagComment (set_flag_for_licitacion (set_flag_for_licitacion FlagStore.empty 1 "red_precio"
        true (some "c") (some "s") (some "u") (some 5))
        1 "red_precio" true (some "c") (some "s") (some "u") (some 5)) 1 "red_precio" =
      some (some "c") ∧
    (set_flag_for_licitacion FlagStore.empty 1 "red_precio"
        true (some "c") (some "s") (some "u") (some 5)).logs.length =
      FlagStore.empty.logs.length + 1 ∧
    (set_flag_for_licitacion (set_flag_for_licitacion FlagStore.empty 1 "red_precio"
        true (some "c") (some "s") (some "u") (some 5))
        1 "red_precio" true (some "c") (some "s") (some "u") (some 5)).logs.length =
      FlagStore.empty.logs.length + 2 :=
  c3_set_flag_idempotent_upsert_append_only_log FlagStore.empty 1 "red_precio"
    true (some "c") (some "s") (some "u") (some 5) (by decide)

/-! ## Claim C5 -/

/-- C5: the business-day count of `_business_days` is symmetric in its two
date arguments; it is 0 on equal dates; it is 0 for a span lying wholly
inside one weekend (both endpoints on the Saturday or Sunday of week `k`);
and it is 5 from a Monday to the following Monday with no holidays. -/
theorem c5_business_days_properties :
    (∀ (d1 d2 : Int) (hol : List Int), business_days d1 d2 hol = business_days d2 d1 hol) ∧
    (∀ (d : Int) (hol : List Int), business_days d d hol = 0) ∧
    (∀ (k d1 d2 : Int) (hol : List Int),
      (d1 = 7 * k + 5 ∨ d1 = 7 * k + 6) → (d2 = 7 * k + 5 ∨ d2 = 7 * k + 6) →
      business_days d1 d2 hol = 0) ∧
    (∀ d : Int, d % 7 = 0 → business_days d (d + 7) [] = 5) := by
  have hself : ∀ (d : Int) (hol : List Int), business_days d d hol = 0 := by
    intro d hol
    simp [business_days, countBD]
  have hsymm : ∀ (d1 d2 : Int) (hol : List Int),
      business_days d1 d2 hol = business_days d2 d1 hol := by
    intro d1 d2 hol
    unfold business_days
    rcases lt_trichotomy d1 d2 with h | h | h
    · rw [if_neg (by omega), if_pos h]
    · subst h; rfl
    · rw [if_pos h, if_neg (by omega)]
  refine ⟨hsymm, hself, ?_, ?_⟩
  · intro k d1 d2 hol h1 h2
    have hsat : business_days (7 * k + 5) (7 * k + 6) hol = 0 := by
      unfold business_days
      rw [if_neg (by omega)]
      rw [show (7 * k + 6 - (7 * k + 5)).toNat = 1 from by omega]
      have hm : (7 * k + 5) % 7 = 5 := by omega
      simp [countBD, isBusinessDay, hm]
    rcases h1 with rfl | rfl <;> rcases h2 with rfl | rfl
    · exact hself _ _
    · exact hsat
    · rw [hsymm]; exact hsat
    · exact hself _ _
  · intro d hd
    unfold business_days
    rw [if_neg (by omega)]
    rw [show (d + 7 - d).toNat = 7 from by omega]
    have e : ∀ x : Int, isBusinessDay [] x = decide (x % 7 < 5) := by
      intro x; simp [isBusinessDay]
    have h1 : (d + 1) % 7 = 1 := by omega
    have h2 : (d + 2) % 7 = 2 := by omega
    have h3 : (d + 3) % 7 = 3 := by omega
    have h4 : (d + 4) % 7 = 4 := by omega
    have h5 : (d + 5) % 7 = 5 := by omega
    have h6 : (d + 6) % 7 = 6 := by omega
    rw [show (7 : Nat) = 6 + 1 from rfl, countBD]
    rw [show (6 : Nat) = 5 + 1 from rfl, countBD]
    rw [show (5 : Nat) = 4 + 1 from rfl, countBD]
    rw [show (4 : Nat) = 3 + 1 from rfl, countBD]
    rw [show (3 : Nat) = 2 + 1 from rfl, countBD]
    rw [show (2 : Nat) = 1 + 1 from rfl, countBD]
    rw [show (1 : Nat) = 0 + 1 from rfl, countBD, countBD]
    rw [e, e, e, e, e, e, e]
    rw [show d + 1 + 1 = d + 2 from by ring, show d + 2 + 1 = d + 3 from by ring,
        show d + 3 + 1 = d + 4 from by ring, show d + 4 + 1 = d + 5 from by ring,
        show d + 5 + 1 = d + 6 from by ring]
    rw [hd, h1, h2, h3, h4, h5, h6]
    norm_num

/-- Witness for C5 at concrete dates: symmetry at (3, 10), a
Saturday-to-Sunday span of week 0, and the Monday-to-Monday week at day 0. -/
theorem c5_witness :
    business_days 3 10 [] = business_days 10 3 [] ∧
    business_days 5 6 [] = 0 ∧
    business_days 0 7 [] = 5 :=
  ⟨c5_business_days_properties.1 3 10 [],
   c5_business_days_properties.2.2.1 0 5 6 [] (Or.inl (by norm_num)) (Or.inr (by norm_num)),
   c5_business_days_properties.2.2.2 0 (by decide)⟩

/-! ## Claim C2 -/

/-- The chain graph A–B–C–D of the spec's test vector, as an adjacency. -/
def chainAdj : List (String × List String) :=
  [("A", ["B"]), ("B", ["A", "C"]), ("C", ["B", "D"]), ("D", ["C"])]

/-- C2, settled against the code as written: in the chain A–B–C–D the pair
(A, C) is indeed found with hop count 2, but (A, D) is ALSO found, with a
3-hop path, although `max_depth = 2`.  The depth guard in the source
(`if len(path) - 1 >= max_depth: pass`) is a no-op where a `continue` was
evidently intended, and the early `return` on reaching `dst` bypasses the
enqueue bound, so paths of `max_depth + 1` hops escape the bound. -/
theorem c2_bfs_exceeds_two_hop_bound :
    shortest_path chainAdj "A" "C" 2 = some ["A", "B", "C"] ∧
    shortest_path chainAdj "A" "D" 2 = some ["A", "B", "C", "D"] := by decide

/-! ## Claim C10 -/

theorem shortest_path_some_ne {adj : List (String × List String)}
    {s d : String} {k : Nat} {p : List String}
    (h : shortest_path adj s d k = some p) : s ≠ d := by
  intro heq
  subst heq
  rw [shortest_path, if_pos (Or.inl rfl)] at h
  cases h

theorem collectStep_fold_no_self (adj : List (String × List String))
    (people : List Persona) :
    ∀ (ps : List (String × String))
      (acc : List RedMatch × Option (String × String × List String) × Int),
      (∀ m ∈ acc.1, m.oficial_id ≠ m.contratista_id) →
      ∀ m ∈ (ps.foldl (collectStep adj people) acc).1,
        m.oficial_id ≠ m.contratista_id := by
  intro ps
  induction ps with
  | nil => intro acc hacc m hm; exact hacc m hm
  | cons p ps ih =>
    intro acc hacc m hm
    rw [List.foldl_cons] at hm
    refine ih _ ?_ m hm
    intro m' hm'
    cases hp : shortest_path adj p.1 p.2 2 with
    | none =>
        rw [collectStep, hp] at hm'
        exact hacc m' hm'
    | some path =>
        rw [collectStep, hp] at hm'
        simp only at hm'
        rcases List.mem_append.mp hm' with h | h
        · exact hacc m' h
        · have hm0 := List.mem_singleton.mp h
          subst hm0
          exact shortest_path_some_ne hp
  
/-- C10: `shortest_path` returns no path from a node to itself (and none
when either endpoint is absent from the adjacency); consequently no match
collected by the official/contractor double loop of `run_red_contactos`
ever pairs a person with themself. -/
theorem c10_no_self_match :
    (∀ (adj : List (String × List String)) (s : String) (k : Nat),
      shortest_path adj s s k = none) ∧
    (∀ (adj : List (String × List String)) (s d : String) (k : Nat),
      (adjGet adj s).isNone ∨ (adjGet adj d).isNone →
      shortest_path adj s d k = none) ∧
    (∀ (adj : List (String × List String)) (people : List Persona)
      (off con : List String) (m : RedMatch),
      m ∈ (collectMatches adj people off con).1 →
      m.oficial_id ≠ m.contratista_id) := by
  refine ⟨?_, ?_, ?_⟩
  · intro adj s k
    rw [shortest_path, if_pos (Or.inl rfl)]
  · intro adj s d k h
    rcases h with h | h
    · rw [shortest_path, if_pos (Or.inr (Or.inl h))]
    · rw [shortest_path, if_pos (Or.inr (Or.inr h))]
  · intro adj people off con m hm
    exact collectStep_fold_no_self adj people _ _ (by intro m' hm'; cases hm') m hm

def peopleABC : List Persona :=
  [⟨"A", "Ana", none, some true, false, [⟨some "B", none⟩]⟩,
   ⟨"B", "Beto", none, none, false, []⟩,
   ⟨"C", "Carla", none, none, true, []⟩]

/-- Witness for C10: self lookup and missing endpoint on the concrete
chain graph, and a concretely collected match that pairs two distinct
persons. -/
theorem c10_witness :
    shortest_path chainAdj "A" "A" 2 = none ∧
    shortest_path chainAdj "A" "Z" 2 = none ∧
    (⟨"A", "Ana", "C", "Carla", ["A", "B", "C"], 2, 18⟩ : RedMatch).oficial_id ≠
      (⟨"A", "Ana", "C", "Carla", ["A", "B", "C"], 2, 18⟩ : RedMatch).contratista_id :=
  ⟨c10_no_self_match.1 chainAdj "A" 2,
   c10_no_self_match.2.1 chainAdj "A" "Z" 2 (Or.inr (by decide)),
   c10_no_self_match.2.2 chainAdj peopleABC ["A"] ["C"] _ (by decide)⟩
/-! ## Concrete databases used by counterexamples and witnesses -/

instance exceptDecidableEq {ε α : Type} [DecidableEq ε] [DecidableEq α] :
    DecidableEq (Except ε α) := fun a b =>
  match a, b with
  | .error e, .error f =>
      decidable_of_iff (e = f) (by constructor <;> (intro h; first | rw [h] | (cases h; rfl)))
  | .error _, .ok _ => isFalse (by intro h; cases h)
  | .ok _, .error _ => isFalse (by intro h; cases h)
  | .ok x, .ok y =>
      decidable_of_iff (x = y) (by constructor <;> (intro h; first | rw [h] | (cases h; rfl)))

def metaPlain : LicMeta := ⟨"ent", none, none, none, some 100⟩

def metaTarget : LicMeta := ⟨"ent", none, none, none, some 1000000⟩

def dbEmpty : Db := ⟨[], [], [], fun _ _ => 0⟩

/-- One licitacion (id 7) with a cuantía but no chunk rows at all. -/
def dbOneNoChunks : Db := ⟨[(7, metaTarget)], [], [], fun _ _ => 0⟩

/-- Licitaciones with ids [5, 1, 8, 2, 3] (in scrambled table order). -/
def db12358 : Db :=
  ⟨[(5, metaPlain), (1, metaPlain), (8, metaPlain), (2, metaPlain), (3, metaPlain)],
   [], [], fun _ _ => 0⟩

/-- A target (id 0, cuantía 1 000 000) plus ten comparables (ids 1-10,
cuantía 100 each), every entity with one valid chunk vector. -/
def dbComparables : Db :=
  ⟨(0, metaTarget) :: (List.range 10).map (fun i => (i + 1, metaPlain)),
   (List.range 11).map (fun i => (i, [true])), [], fun _ _ => 0⟩

/-! ## Claim C7 -/

/-- C7 as frozen is false on the code: the fast-fail entry of
`_run_one_flow` for an interactive flow with a missing payload carries
`error = "json_required"`, not `"payload_required"`. -/
theorem c7_counterexample_error_string :
    run_flow_for_one dbEmpty FlagStore.empty 1 "red_contactos" none =
      .ok (FlagStore.empty, ⟨1, [jsonRequiredEntry]⟩) ∧
    jsonRequiredEntry.error ≠ some "payload_required" := by decide

/-- C7 amended: a direct `run_for_one` invocation of the interactive
contact-network flow with a missing (falsy) payload fails fast with one
entry carrying `ok = false` and `error = "json_required"`, and performs no
storage write (the store is returned unchanged). -/
theorem c7_missing_payload_fails_fast_no_write
    (db : Db) (st : FlagStore) (lic : Nat) :
    run_flow_for_one db st lic "red_contactos" none =
      .ok (st, ⟨lic, [jsonRequiredEntry]⟩) ∧
    jsonRequiredEntry.ok = some false ∧
    jsonRequiredEntry.error = some "json_required" := by
  exact ⟨rfl, rfl, rfl⟩

/-! ## Claim C1 -/

theorem runFlows_ok_length :
    ∀ (flows : List String) (db : Db) (lic : Nat) (p : Option Payload)
      (st st' : FlagStore) (es : List FlowEntry),
      runFlows db lic p st flows = .ok (st', es) → es.length = flows.length := by
  intro flows
  induction flows with
  | nil =>
      intro db lic p st st' es h
      rw [runFlows] at h
      cases h
      rfl
  | cons f fs ih =>
      intro db lic p st st' es h
      rw [runFlows] at h
      split at h
      · simp at h
      · rename_i st1 e1 heq1
        split at h
        · simp at h
        · rename_i st2 es2 heq2
          cases h
          simp [ih db lic p st1 st' es2 heq2]

theorem runBatchLoop_ok_length :
    ∀ (ids : List Nat) (db : Db) (ksflow : String) (p : Option Payload)
      (st st' : FlagStore) (out : List RunOneResult),
      runBatchLoop db ksflow p st ids = .ok (st', out) → out.length = ids.length := by
  intro ids
  induction ids with
  | nil =>
      intro db ksflow p st st' out h
      rw [runBatchLoop] at h
      cases h
      rfl
  | cons i is ih =>
      intro db ksflow p st st' out h
      rw [runBatchLoop] at h
      split at h
      · simp at h
      · rename_i st1 r1 heq1
        split at h
        · simp at h
        · rename_i st2 rs2 heq2
          cases h
          simp [ih db ksflow p st1 st' rs2 heq2]

/-- C1 as frozen is false on the code: neither `run_flow_for_one` nor
`run_flow_batch` catches exceptions, so one failing flow (here: red_precio
raising because the licitacion does not exist) aborts the whole "all" run
and the whole batch, and no result list is produced at all. -/
theorem c1_counterexample_failure_aborts_siblings :
    run_flow_for_one dbEmpty FlagStore.empty 1 "all" none =
      .error "Licitación 1 no existe" ∧
    run_flow_batch dbEmpty FlagStore.empty "all" (some [1, 2]) none none none =
      .error "Licitación 1 no existe" := by decide

/-- C1 amended: when the call returns at all (no flow raised), the "all"
run has exactly one entry per computable flow and a batch has exactly one
result per candidate id; but an exception inside one flow propagates out
of `run_flow_for_one`, aborting the remaining sibling flows and entities
instead of being recorded in the entry. -/
theorem c1_complete_only_when_no_flow_raises :
    (∀ (db : Db) (st : FlagStore) (lic : Nat) (p : Option Payload)
      (st' : FlagStore) (r : RunOneResult),
      run_flow_for_one db st lic "all" p = .ok (st', r) →
      r.applied.length = get_computable_flows.length) ∧
    (∀ (db : Db) (st : FlagStore) (ids : List Nat)
      (wc : Option (Nat → LicMeta → Bool)) (lim : Option Nat) (p : Option Payload)
      (st' : FlagStore) (out : List RunOneResult),
      run_flow_batch db st "all" (some ids) wc lim p = .ok (st', out) →
      out.length = ids.length) ∧
    (∀ (db : Db) (st : FlagStore) (lic : Nat) (p : Option Payload) (e : String),
      run_one_flow db st lic "red_precio" p = .error e →
      run_flow_for_one db st lic "red_precio" p = .error e) := by
  refine ⟨?_, ?_, ?_⟩
  · intro db st lic p st' r h
    simp only [run_flow_for_one] at h
    rw [if_pos trivial] at h
    split at h
    · simp at h
    · rename_i applied heq
      cases h
      exact runFlows_ok_length _ _ _ _ _ _ _ heq
  · intro db st ids wc lim p st' out h
    simp only [run_flow_batch] at h
    rw [if_pos (Or.inl trivial)] at h
    exact runBatchLoop_ok_length ids db "all" p st st' out h
  · intro db st lic p e h
    simp only [run_flow_for_one]
    rw [if_neg (by decide)]
    simp only [runFlows, h]

/-- Witness for C1 (amended): the "all" run on a concrete database where
no flow raises has one entry per computable flow, and the propagation
conjunct applied at the concrete failing input. -/
theorem c1_witness :
    (∃ (st' : FlagStore) (r : RunOneResult),
      run_flow_for_one dbOneNoChunks FlagStore.empty 7 "all" none = .ok (st', r) ∧
      r.applied.length = get_computable_flows.length) ∧
    run_flow_for_one dbEmpty FlagStore.empty 1 "red_precio" none =
      .error "Licitación 1 no existe" := by
  constructor
  · have hok : (run_flow_for_one dbOneNoChunks FlagStore.empty 7 "all" none).toOption.isSome =
        true := by decide
    cases hrun : run_flow_for_one dbOneNoChunks FlagStore.empty 7 "all" none with
    | error e => rw [hrun] at hok; cases hok
    | ok q =>
        obtain ⟨st1, r1⟩ := q
        refine ⟨st1, r1, rfl, ?_⟩
        exact c1_complete_only_when_no_flow_raises.1 dbOneNoChunks FlagStore.empty 7 none st1 r1
          hrun
  · exact c1_complete_only_when_no_flow_raises.2.2 dbEmpty FlagStore.empty 1 none
      "Licitación 1 no existe" (by decide)

/-! ## Claim C8 -/

/-- C8: with `lic_ids` omitted, batch candidates are the persisted
licitacion ids matching the filter, in ascending order, truncated to the
given (positive) limit; concretely, over ids [5,1,8,2,3] with limit 3 the
batch runs exactly [1,2,3] in that order and the result list follows that
order. -/
theorem c8_batch_resolves_sorted_limited_ids :
    (∀ (db : Db) (pred : Nat → LicMeta → Bool) (l : Nat), 0 < l →
      (resolveIds db (some pred) (some l)).Sorted (· ≤ ·) ∧
      (resolveIds db (some pred) (some l)).length ≤ l ∧
      (∀ i ∈ resolveIds db (some pred) (some l),
        ∃ m, (i, m) ∈ db.lics ∧ pred i m = true) ∧
      resolveIds db (some pred) (some l) =
        (((db.lics.filter (fun r => pred r.1 r.2)).map (·.1)).insertionSort
          (· ≤ ·)).take l) ∧
    run_flow_batch db12358 FlagStore.empty "gap_fechas" none none (some 3) none =
      .ok (FlagStore.empty,
        [⟨1, [⟨"gap_fechas", none, none, some (.fecha (.err "sin_calendario"))⟩]⟩,
         ⟨2, [⟨"gap_fechas", none, none, some (.fecha (.err "sin_calendario"))⟩]⟩,
         ⟨3, [⟨"gap_fechas", none, none, some (.fecha (.err "sin_calendario"))⟩]⟩]) := by
  constructor
  · intro db pred l hl
    have hres : resolveIds db (some pred) (some l) =
        (((db.lics.filter (fun r => pred r.1 r.2)).map (·.1)).insertionSort
          (· ≤ ·)).take l := by
      simp only [resolveIds]
      rw [if_pos (by omega)]
    refine ⟨?_, ?_, ?_, hres⟩
    · rw [hres]
      exact List.Pairwise.sublist (List.take_sublist _ _) (List.sorted_insertionSort _ _)
    · rw [hres, List.length_take]
      exact inf_le_left
    · intro i hi
      rw [hres] at hi
      have hi2 := (List.take_sublist _ _).subset hi
      have hi3 := (List.perm_insertionSort (· ≤ ·) _).mem_iff.mp hi2
      obtain ⟨r, hr, hri⟩ := List.mem_map.mp hi3
      obtain ⟨hmem, hpred⟩ := List.mem_filter.mp hr
      subst hri
      exact ⟨r.2, Prod.mk.eta ▸ hmem, hpred⟩
  · decide

/-- Witness for C8 at the concrete database and limit of the test vector. -/
theorem c8_witness :
    (resolveIds db12358 (some (fun _ _ => true)) (some 3)).Sorted (· ≤ ·) ∧
    (resolveIds db12358 (some (fun _ _ => true)) (some 3)).length ≤ 3 ∧
    resolveIds db12358 (some (fun _ _ => true)) (some 3) =
      (((db12358.lics.filter (fun _ => true)).map (·.1)).insertionSort (· ≤ ·)).take 3 := by
  have h := c8_batch_resolves_sorted_limited_ids.1 db12358 (fun _ _ => true) 3 (by decide)
  exact ⟨h.1, h.2.1, h.2.2.2⟩

/-! ## Claim C6 -/

theorem upsertFlagDef_assignments (st : FlagStore) (c n d : String) :
    (upsertFlagDef st c n d).assignments = st.assignments := by
  unfold upsertFlagDef
  split <;> rfl

theorem upsertFlagDef_logs (st : FlagStore) (c n d : String) :
    (upsertFlagDef st c n d).logs = st.logs := by
  unfold upsertFlagDef
  split <;> rfl

theorem upsertFlagDef_wf (st : FlagStore) (c n d : String) (h : st.Wf) :
    (upsertFlagDef st c n d).Wf := by
  unfold FlagStore.Wf
  rw [upsertFlagDef_assignments]
  exact h

/-- C6: for every existing entity with no valid chunk embedding vectors,
the price detector raises nothing: it returns a skip result
(method = "skip", n_comparables = 0, all-zero statistics, empty neighbor
list) and persists exactly one flag write, with value false and the
"no embedding" comment. -/
theorem c6_no_embedding_skips_and_persists_false
    (db : Db) (st : FlagStore) (lic : Nat) (meta : LicMeta)
    (tk mn : Nat) (pen : ℚ) (hwf : st.Wf)
    (hlic : licFind db lic = some meta)
    (hchunk : hasTargetDocvec db lic = false) :
    ∃ st', run_flag_precio_for_one db st lic tk mn pen =
        .ok (st', ⟨lic, 0, "skip", RobustStats.zero, meta.cuantia, []⟩) ∧
      getFlagValor st' lic "red_precio" = some false ∧
      getFlagComment st' lic "red_precio" = some (some noEmbeddingComment) ∧
      st'.logs.length = st.logs.length + 1 := by
  have hwf2 := upsertFlagDef_wf st "red_precio" "Desviación de precio (comparables)"
    "Evalúa si la cuantía está fuera del rango robusto (IQR/zMAD) de comparables similares."
    hwf
  have hrun : run_flag_precio_for_one db st lic tk mn pen =
      .ok (set_flag_for_licitacion
            (upsertFlagDef st "red_precio" "Desviación de precio (comparables)"
              "Evalúa si la cuantía está fuera del rango robusto (IQR/zMAD) de comparables similares.")
            lic "red_precio" false (some noEmbeddingComment) (some "flag_precio(skip)")
            (some "pipeline") none,
          ⟨lic, 0, "skip", RobustStats.zero, meta.cuantia, []⟩) := by
    simp only [run_flag_precio_for_one, hlic, hchunk, Bool.not_false, if_true]
  obtain ⟨hval, hcom, hlen⟩ := set_flag_spec
    (upsertFlagDef st "red_precio" "Desviación de precio (comparables)"
      "Evalúa si la cuantía está fuera del rango robusto (IQR/zMAD) de comparables similares.")
    lic "red_precio" false (some noEmbeddingComment) (some "flag_precio(skip)")
    (some "pipeline") none hwf2
  refine ⟨_, hrun, hval, hcom, ?_⟩
  rw [hlen, upsertFlagDef_logs]

/-- Witness for C6 at the concrete one-entity, zero-chunk database. -/
theorem c6_witness :
    ∃ st', run_flag_precio_for_one dbOneNoChunks FlagStore.empty 7 TOP_K
        MIN_NEIGHBORS_FOR_STATS PENALTY_ESTADO =
        .ok (st', ⟨7, 0, "skip", RobustStats.zero, metaTarget.cuantia, []⟩) ∧
      getFlagValor st' 7 "red_precio" = some false ∧
      getFlagComment st' 7 "red_precio" = some (some noEmbeddingComment) ∧
      st'.logs.length = FlagStore.empty.logs.length + 1 :=
  c6_no_embedding_skips_and_persists_false dbOneNoChunks FlagStore.empty 7 metaTarget
    TOP_K MIN_NEIGHBORS_FOR_STATS PENALTY_ESTADO (by decide) (by decide) (by decide)

/-! ## Claims C9 and C4: dissection of the price-detector run -/

theorem robust_stats_fields (vec : List ℚ) (t : Option ℚ) :
    (robust_stats vec t).iqr = (robust_stats vec t).q3 - (robust_stats vec t).q1 ∧
    (robust_stats vec t).lower =
      (robust_stats vec t).q1 - 3 / 2 * (robust_stats vec t).iqr ∧
    (robust_stats vec t).upper =
      (robust_stats vec t).q3 + 3 / 2 * (robust_stats vec t).iqr ∧
    (robust_stats vec t).z_mad = (match t with
      | none => 0
      | some x => if (robust_stats vec t).mad = 0 then 0
          else 6745 / 10000 * (x - (robust_stats vec t).median) /
            (robust_stats vec t).mad) ∧
    (robust_stats vec t).n = vec.length := by
  unfold robust_stats
  cases t <;> simp

/-- Every successful price-detector run falls into one of three shapes:
an early skip (method "skip", zero stats, flag persisted false), the
insufficient-neighbors skip (method "chunks_mean_cos", zero stats, fewer
than `min_neighbors` comparables, flag persisted false), or the statistics
path (at least `min_neighbors` comparables, stats computed by
`_robust_stats` over the neighbor cuantías, and the flag persisted exactly
as `precioFlagDecision` evaluates on those stats). -/
theorem precio_run_dissect (db : Db) (st : FlagStore) (lic : Nat)
    (tk mn : Nat) (pen : ℚ) (st' : FlagStore) (res : FlagPrecioResult)
    (hwf : st.Wf)
    (hrun : run_flag_precio_for_one db st lic tk mn pen = .ok (st', res)) :
    (res.method = "skip" ∧ res.stats = RobustStats.zero ∧
      getFlagValor st' lic "red_precio" = some false) ∨
    (res.method = "chunks_mean_cos" ∧ res.stats = RobustStats.zero ∧
      res.n_comparables < mn ∧
      getFlagValor st' lic "red_precio" = some false) ∨
    (res.method = "chunks_mean_cos" ∧ mn ≤ res.n_comparables ∧
      (∃ vec : List ℚ, res.stats = robust_stats vec res.target_cuantia ∧
        vec.length = res.n_comparables) ∧
      getFlagValor st' lic "red_precio" =
        some (precioFlagDecision res.stats res.target_cuantia)) := by
  have hwf2 := upsertFlagDef_wf st "red_precio" "Desviación de precio (comparables)"
    "Evalúa si la cuantía está fuera del rango robusto (IQR/zMAD) de comparables similares."
    hwf
  cases hlic : licFind db lic with
  | none =>
      simp only [run_flag_precio_for_one, hlic] at hrun
      cases hrun
  | some meta =>
      cases hch : hasTargetDocvec db lic with
      | false =>
          simp only [run_flag_precio_for_one, hlic, hch, Bool.not_false, if_true] at hrun
          simp only [Except.ok.injEq, Prod.mk.injEq] at hrun
          obtain ⟨hst', hres⟩ := hrun
          subst hst'
          subst hres
          exact Or.inl ⟨rfl, rfl,
            (set_flag_spec _ lic "red_precio" false (some noEmbeddingComment)
              (some "flag_precio(skip)") (some "pipeline") none hwf2).1⟩
      | true =>
          simp only [run_flag_precio_for_one, hlic, hch, Bool.not_true] at hrun
          rw [if_neg (by simp)] at hrun
          split at hrun
          · simp only [Except.ok.injEq, Prod.mk.injEq] at hrun
            obtain ⟨hst', hres⟩ := hrun
            subst hst'
            subst hres
            exact Or.inl ⟨rfl, rfl,
              (set_flag_spec _ lic "red_precio" false (some noComparablesComment)
                (some "flag_precio_chunks_mean_cos(skip)") (some "pipeline") none
                hwf2).1⟩
          · split at hrun
            · rename_i hlt
              simp only [Except.ok.injEq, Prod.mk.injEq] at hrun
              obtain ⟨hst', hres⟩ := hrun
              subst hst'
              subst hres
              refine Or.inr (Or.inl ⟨rfl, rfl, hlt, ?_⟩)
              exact (set_flag_spec _ lic "red_precio" false _
                (some "flag_precio_chunks_mean_cos(skip)") (some "pipeline") none hwf2).1
            · rename_i hge
              simp only [Except.ok.injEq, Prod.mk.injEq] at hrun
              obtain ⟨hst', hres⟩ := hrun
              subst hst'
              subst hres
              refine Or.inr (Or.inr ⟨rfl, le_of_not_lt hge, ⟨_, rfl, rfl⟩, ?_⟩)
              exact (set_flag_spec _ lic "red_precio" _ _
                (some "flag_precio_chunks_mean_cos") (some "pipeline") none hwf2).1

/-- C9: the `flag_applied` field that `_run_one_flow` returns for the
red_precio flow is recomputed from the returned statistics (fences and
z-score) rather than read back from storage; so on every skip path that
returns all-zero statistics while the target cuantía is present and
strictly positive, the entry says `flag_applied = true` although the flag
persisted by the detector is false. -/
theorem c9_pipeline_recomputes_flag_from_stats
    (db : Db) (st : FlagStore) (lic : Nat) (payload : Option Payload)
    (st' : FlagStore) (res : FlagPrecioResult) (cq : ℚ) (hwf : st.Wf)
    (hrun : run_flag_precio_for_one db st lic TOP_K MIN_NEIGHBORS_FOR_STATS
      PENALTY_ESTADO = .ok (st', res))
    (hstats : res.stats = RobustStats.zero)
    (htc : res.target_cuantia = some cq) (hcq : 0 < cq) :
    run_one_flow db st lic "red_precio" payload =
      .ok (st', ⟨"red_precio", none, none,
        some (.precio true true
          ⟨res.method, res.n_comparables, 0, 0, 0, 0, res.neighbor_ids⟩)⟩) ∧
    getFlagValor st' lic "red_precio" = some false := by
  have hfa : pipelinePrecioFlag res = true := by
    simp only [pipelinePrecioFlag, htc, hstats, RobustStats.zero]
    simp [hcq]
  constructor
  · simp only [run_one_flow]
    rw [if_pos trivial, hrun]
    simp only [hfa, hstats, RobustStats.zero]
    rw [if_neg (by decide)]
  · rcases precio_run_dissect db st lic TOP_K MIN_NEIGHBORS_FOR_STATS PENALTY_ESTADO
      st' res hwf hrun with h | h | h
    · exact h.2.2
    · exact h.2.2.2
    · exfalso
      obtain ⟨-, hge, ⟨vec, hsv, hlen⟩, -⟩ := h
      have h1 : res.stats.n = 0 := by rw [hstats]; rfl
      have h2 : res.stats.n = vec.length := by
        rw [hsv]
        exact (robust_stats_fields vec res.target_cuantia).2.2.2.2
      have h3 : (10 : Nat) ≤ res.n_comparables := hge
      omega

/-- The flag storage left by the skip write of the C9 witness run. -/
def c9Store : FlagStore :=
  ⟨[⟨1, "red_precio", "Desviación de precio (comparables)",
     some "Evalúa si la cuantía está fuera del rango robusto (IQR/zMAD) de comparables similares."⟩],
   [⟨1, 7, 1, false, 0, some noEmbeddingComment, some "flag_precio(skip)"⟩],
   [⟨1, false, some noEmbeddingComment, some "flag_precio(skip)", 0, "pipeline"⟩],
   2, 2⟩

/-- Witness for C9 at the concrete zero-chunk database: the entry reports
`flag_applied = true` while storage holds false. -/
theorem c9_witness :
    run_one_flow dbOneNoChunks FlagStore.empty 7 "red_precio" none =
      .ok (c9Store, ⟨"red_precio", none, none,
        some (.precio true true ⟨"skip", 0, 0, 0, 0, 0, []⟩)⟩) ∧
    getFlagValor c9Store 7 "red_precio" = some false :=
  c9_pipeline_recomputes_flag_from_stats dbOneNoChunks FlagStore.empty 7 none
    c9Store ⟨7, 0, "skip", RobustStats.zero, some 1000000, []⟩ 1000000
    (by decide) (by decide) rfl rfl (by norm_num)

/-- C4: once the statistics step is reached (method "chunks_mean_cos" and
at least `min_neighbors` comparables), the returned statistics satisfy the
Tukey-fence equations, the modified z-score equals
0.6745·(target − median)/MAD and is 0 when MAD = 0 or the target is
missing/non-finite, and the persisted flag value is false for a missing
target and otherwise true exactly when the target lies outside
[lower, upper] or |z| ≥ 2.8. -/
theorem c4_robust_stats_and_flag_decision
    (db : Db) (st : FlagStore) (lic : Nat) (tk mn : Nat) (pen : ℚ)
    (st' : FlagStore) (res : FlagPrecioResult) (hwf : st.Wf)
    (hrun : run_flag_precio_for_one db st lic tk mn pen = .ok (st', res))
    (hmeth : res.method = "chunks_mean_cos")
    (hge : mn ≤ res.n_comparables) :
    (res.stats.iqr = res.stats.q3 - res.stats.q1 ∧
     res.stats.lower = res.stats.q1 - 3 / 2 * res.stats.iqr ∧
     res.stats.upper = res.stats.q3 + 3 / 2 * res.stats.iqr) ∧
    res.stats.z_mad = (match res.target_cuantia with
      | none => 0
      | some x => if res.stats.mad = 0 then 0
          else 6745 / 10000 * (x - res.stats.median) / res.stats.mad) ∧
    getFlagValor st' lic "red_precio" =
      some (match res.target_cuantia with
        | none => false
        | some t => decide (t < res.stats.lower ∨ res.stats.upper < t ∨
            Z_MAD_THRESHOLD ≤ |res.stats.z_mad|)) := by
  rcases precio_run_dissect db st lic tk mn pen st' res hwf hrun with h | h | h
  · exact absurd (h.1.symm.trans hmeth) (by decide)
  · exact absurd hge (not_le.mpr h.2.2.1)
  · obtain ⟨-, -, ⟨vec, hsv, hlen⟩, hval⟩ := h
    refine ⟨?_, ?_, ?_⟩
    · rw [hsv]
      exact ⟨(robust_stats_fields vec res.target_cuantia).1,
        (robust_stats_fields vec res.target_cuantia).2.1,
        (robust_stats_fields vec res.target_cuantia).2.2.1⟩
    · rw [hsv]
      exact (robust_stats_fields vec res.target_cuantia).2.2.2.1
    · rw [hval]
      congr 1
      cases htc : res.target_cuantia with
      | none => simp [precioFlagDecision]
      | some t => simp [precioFlagDecision, Bool.decide_or, Bool.or_assoc]


def metaOne : LicMeta := ⟨"ent", none, none, none, some 1⟩

def metaZero : LicMeta := ⟨"ent", none, none, none, some 0⟩

/-- Target (id 0, cuantía 1) and one comparable (id 1, cuantía 0), both
with a valid chunk vector. -/
def dbTwo : Db := ⟨[(0, metaOne), (1, metaZero)], [(0, [true]), (1, [true])], [], fun _ _ => 0⟩

def c4Stats : RobustStats := ⟨0, 0, 0, 0, 0, 0, 0, 0, 1⟩

def c4Result : FlagPrecioResult := ⟨0, 1, "chunks_mean_cos", c4Stats, some 1, [1]⟩

def c4Store : FlagStore :=
  ⟨[⟨1, "red_precio", "Desviación de precio (comparables)",
     some "Evalúa si la cuantía está fuera del rango robusto (IQR/zMAD) de comparables similares."⟩],
   [⟨1, 0, 1, true, 0, some (precioStatsComment true 1 c4Stats 1),
     some "flag_precio_chunks_mean_cos"⟩],
   [⟨1, true, some (precioStatsComment true 1 c4Stats 1),
     some "flag_precio_chunks_mean_cos", 0, "pipeline"⟩],
   2, 2⟩

/-- Witness for C4: a statistics-step run (top_k = min_neighbors = 1) with
one neighbor of cuantía 0 and target 1, which lands above the degenerate
upper fence and is flagged. -/
theorem c4_witness :
    (c4Result.stats.iqr = c4Result.stats.q3 - c4Result.stats.q1 ∧
     c4Result.stats.lower = c4Result.stats.q1 - 3 / 2 * c4Result.stats.iqr ∧
     c4Result.stats.upper = c4Result.stats.q3 + 3 / 2 * c4Result.stats.iqr) ∧
    c4Result.stats.z_mad = (match c4Result.target_cuantia with
      | none => 0
      | some x => if c4Result.stats.mad = 0 then 0
          else 6745 / 10000 * (x - c4Result.stats.median) / c4Result.stats.mad) ∧
    getFlagValor c4Store 0 "red_precio" =
      some (match c4Result.target_cuantia with
        | none => false
        | some t => decide (t < c4Result.stats.lower ∨ c4Result.stats.upper < t ∨
            Z_MAD_THRESHOLD ≤ |c4Result.stats.z_mad|)) := by
  have hrun : run_flag_precio_for_one dbTwo FlagStore.empty 0 1 1 0 =
      .ok (c4Store, c4Result) := by
    norm_num [run_flag_precio_for_one, licFind, dbTwo, metaOne, metaZero, hasTargetDocvec,
      hasCandDocvec, chunksOf, fetchCandidateHeaders, penaltyEstado, robust_stats, medianQ,
      percentileQ, insertionSortQ, List.insertionSort, List.orderedInsert, upsertFlagDef,
      set_flag_for_licitacion, ensure_flag_by_codigo, FlagStore.empty, precioFlagDecision,
      Z_MAD_THRESHOLD, MAX_TARGET_CHUNKS, MAX_CANDIDATES, MAX_CAND_PER_LIC_CHUNKS,
      c4Store, c4Result, c4Stats, precioStatsComment, List.find?, List.filter, List.filterMap]
  exact c4_robust_stats_and_flag_decision dbTwo FlagStore.empty 0 1 1 0 c4Store c4Result
    (by decide) hrun rfl (by decide)
